import Mathlib

/-!
Verification of the recipe-extraction pipeline.

The development shallowly embeds the two Zod schemas of the repository
(the API route module `app/api/extract-recipe/route.ts` — prefixed
`route` — and the utility module `app/utils/extractRecipe.ts` — prefixed
`util`), the prompt template of the route module, and its
`POST` handler.  JSON values are modelled with exact rational numbers
(JSON text cannot denote NaN or infinities), the Zod `parse` becomes an
`Option`-valued function (`none` = the schema throws), and the
`.transform(...)` hooks become explicit total functions applied after
validation, exactly as Zod sequences them.
-/

/-- A parsed JSON value. -/
inductive Json where
  | null
  | bool (b : Bool)
  | num (q : Rat)
  | str (s : String)
  | arr (elems : List Json)
  | obj (fields : List (String × Json))

/-- Key lookup in the field list of an object (first match, as for the unique
keys produced by `JSON.parse`). -/
def getKey : List (String × Json) → String → Option Json
  | [], _ => none
  | (k', v) :: rest, k => if k' = k then some v else getKey rest k

/-- Field access on a JSON value; `none` on non-objects. -/
def Json.getField : Json → String → Option Json
  | Json.obj fs, k => getKey fs k
  | _, _ => none

/-- `z.string()`: accepts exactly JSON strings (a missing field is `none`
and is rejected). -/
def pString : Option Json → Option String
  | some (Json.str s) => some s
  | _ => none

/-- `z.string().min(1)`: a JSON string of length at least one. -/
def pStringNonEmpty : Option Json → Option String
  | some (Json.str s) => if s = "" then none else some s
  | _ => none

/-- `z.number().nonnegative()`: a JSON number that is `≥ 0`. -/
def pNumNonneg : Option Json → Option Rat
  | some (Json.num q) => if 0 ≤ q then some q else none
  | _ => none

/-- `z.number().int().nonnegative()`: an integral JSON number `≥ 0`. -/
def pIntNonneg : Option Json → Option Rat
  | some (Json.num q) => if q.den = 1 ∧ 0 ≤ q then some q else none
  | _ => none

/-- One element of `z.array(z.string())`. -/
def pElemString : Json → Option String
  | Json.str s => some s
  | _ => none

/-- `z.array(inner)` elementwise: every element must parse. -/
def parseList {α : Type} (p : Json → Option α) : List Json → Option (List α)
  | [] => some []
  | j :: rest =>
    match p j with
    | some a =>
      match parseList p rest with
      | some l => some (a :: l)
      | none => none
    | none => none

/-- A required `z.array(inner)` field. -/
def pArr {α : Type} (p : Json → Option α) : Option Json → Option (List α)
  | some (Json.arr l) => parseList p l
  | _ => none

/-- The closed `type` enumeration of a Component. -/
inductive ComponentType where
  | protein
  | starch
  | vegetable
  | sauce
deriving DecidableEq

/-- `z.enum(["protein", "starch", "vegetable", "sauce"])` on a string. -/
def ComponentType.ofString? (s : String) : Option ComponentType :=
  if s = "protein" then some ComponentType.protein
  else if s = "starch" then some ComponentType.starch
  else if s = "vegetable" then some ComponentType.vegetable
  else if s = "sauce" then some ComponentType.sauce
  else none

/-- The serialized name of a component type. -/
def ComponentType.toStr : ComponentType → String
  | ComponentType.protein => "protein"
  | ComponentType.starch => "starch"
  | ComponentType.vegetable => "vegetable"
  | ComponentType.sauce => "sauce"

/-- The `type` field: `z.enum([...])` on a JSON value. -/
def pEnum : Option Json → Option ComponentType
  | some (Json.str s) => ComponentType.ofString? s
  | _ => none

/-- A leaf sub-ingredient: `{ name, amount_per_portion_grams }`. -/
structure SubIngredient where
  name : String
  amount_per_portion_grams : Rat
deriving DecidableEq

/-- An ingredient; `sub_ingredients = none` models the absent key. -/
structure Ingredient where
  name : String
  amount_per_portion_grams : Rat
  sub_ingredients : Option (List SubIngredient)
deriving DecidableEq

/-- One recipe component. -/
structure Component where
  name : String
  type : ComponentType
  prep_time_minutes : Rat
  cook_time_minutes : Rat
  cook_temp_fahrenheit : Rat
  cook_method : String
  portion_weight_grams : Rat
  ingredients : List Ingredient
deriving DecidableEq

/-- The root recipe document. -/
structure RecipeDoc where
  recipe_name : String
  chef : String
  yield_count : Rat
  allergens : List String
  components : List Component
deriving DecidableEq

/-! ### route.ts — `IngredientSchema` and `RecipeSchema` -/

/-- The sub-ingredient object schema nested in `IngredientSchema`
(`route.ts` lines 12–15). -/
def routeParseSubIngredient : Json → Option SubIngredient
  | Json.obj fs =>
    (pString (getKey fs "name")).bind fun n =>
    (pNumNonneg (getKey fs "amount_per_portion_grams")).bind fun a =>
    some { name := n, amount_per_portion_grams := a }
  | _ => none

/-- The `.optional()` sub-ingredient array field: an absent key is
accepted as `none`; a present value must be an array of valid
sub-ingredient objects. -/
def pOptSubs (fs : List (String × Json)) : Option (Option (List SubIngredient)) :=
  match getKey fs "sub_ingredients" with
  | none => some none
  | some (Json.arr l) => (parseList routeParseSubIngredient l).map some
  | some _ => none

/-- Validation part of `IngredientSchema` (`route.ts` lines 9–15), before
its `.transform`. -/
def routeValidateIngredient : Json → Option Ingredient
  | Json.obj fs =>
    (pString (getKey fs "name")).bind fun n =>
    (pNumNonneg (getKey fs "amount_per_portion_grams")).bind fun a =>
    (pOptSubs fs).bind fun subs =>
    some { name := n, amount_per_portion_grams := a, sub_ingredients := subs }
  | _ => none

/-- The `IngredientSchema` `.transform` (`route.ts` lines 16–33): keep
`sub_ingredients` only when present with at least one item. -/
def routeTransformIngredient (i : Ingredient) : Ingredient :=
  { name := i.name
    amount_per_portion_grams := i.amount_per_portion_grams
    sub_ingredients :=
      match i.sub_ingredients with
      | some l => if 0 < l.length then some l else none
      | none => none }

/-- `IngredientSchema.parse`: validation then transform. -/
def routeParseIngredient (j : Json) : Option Ingredient :=
  (routeValidateIngredient j).map routeTransformIngredient

/-- The inline component object schema of `RecipeSchema.components`
(`route.ts` lines 40–51). -/
def routeValidateComponent : Json → Option Component
  | Json.obj fs =>
    (pString (getKey fs "name")).bind fun n =>
    (pEnum (getKey fs "type")).bind fun ty =>
    (pIntNonneg (getKey fs "prep_time_minutes")).bind fun prep =>
    (pIntNonneg (getKey fs "cook_time_minutes")).bind fun cook =>
    (pIntNonneg (getKey fs "cook_temp_fahrenheit")).bind fun temp =>
    (pString (getKey fs "cook_method")).bind fun method =>
    (pNumNonneg (getKey fs "portion_weight_grams")).bind fun weight =>
    (pArr routeParseIngredient (getKey fs "ingredients")).bind fun ings =>
    some { name := n, type := ty, prep_time_minutes := prep,
           cook_time_minutes := cook, cook_temp_fahrenheit := temp,
           cook_method := method, portion_weight_grams := weight,
           ingredients := ings }
  | _ => none

/-- Validation part of `RecipeSchema` (`route.ts` lines 35–51), before
its `.transform`. -/
def routeValidateRecipe : Json → Option RecipeDoc
  | Json.obj fs =>
    (pString (getKey fs "recipe_name")).bind fun rn =>
    (pString (getKey fs "chef")).bind fun chef =>
    (pNumNonneg (getKey fs "yield_count")).bind fun y =>
    (pArr pElemString (getKey fs "allergens")).bind fun alls =>
    (pArr routeValidateComponent (getKey fs "components")).bind fun comps =>
    some { recipe_name := rn, chef := chef, yield_count := y,
           allergens := alls, components := comps }
  | _ => none

/-- JavaScript `s || d` on validated strings: the only falsy string is `""`. -/
def jsOrStr (s d : String) : String := if s = "" then d else s

/-- JavaScript `q || d` on validated numbers: the only falsy (representable)
number is `0`. -/
def jsOrNum (q d : Rat) : Rat := if q = 0 then d else q

/-- The per-component body of the `RecipeSchema` `.transform`
(`route.ts` lines 60–70).  `component.type || "protein"` and
`component.ingredients || []` are identities because a validated enum
string and a validated array are always truthy; they are embedded as the
identities they denote. -/
def routeTransformComponent (c : Component) : Component :=
  { name := jsOrStr c.name "Unknown Component"
    type := c.type
    prep_time_minutes := jsOrNum c.prep_time_minutes 0
    cook_time_minutes := jsOrNum c.cook_time_minutes 0
    cook_temp_fahrenheit := jsOrNum c.cook_temp_fahrenheit 0
    cook_method := jsOrStr c.cook_method ""
    portion_weight_grams := jsOrNum c.portion_weight_grams 0
    ingredients := c.ingredients }

/-- The `RecipeSchema` `.transform` (`route.ts` lines 52–72).
`data.allergens || []` is the identity on a validated array. -/
def routeTransformRecipe (r : RecipeDoc) : RecipeDoc :=
  { recipe_name := jsOrStr r.recipe_name "Unknown Recipe"
    chef := jsOrStr r.chef ""
    yield_count := jsOrNum r.yield_count 0
    allergens := r.allergens
    components := r.components.map routeTransformComponent }

/-- `RecipeSchema.parse` of the route module: validation then transform. -/
def routeParseRecipe (j : Json) : Option RecipeDoc :=
  (routeValidateRecipe j).map routeTransformRecipe

/-! ### extractRecipe.ts — the `RecipeSchema` of the utility module -/

/-- A field with a Zod `.default(d)` string: an absent key yields the
default; a present value must be a JSON string. -/
def pDefaultStr (o : Option Json) (d : String) : Option String :=
  match o with
  | none => some d
  | some v => pString (some v)

/-- `z.number().int().nonnegative().optional().default(d)`: an absent key
yields the default; a present value must be an integral number `≥ 0`. -/
def pDefaultIntNonneg (o : Option Json) (d : Rat) : Option Rat :=
  match o with
  | none => some d
  | some v => pIntNonneg (some v)

/-- The ingredient object of `extractRecipe.ts` (lines 22–27): only
`name` and `amount_per_portion_grams`; any `sub_ingredients` key is
stripped as an unknown key. -/
def utilParseIngredient : Json → Option Ingredient
  | Json.obj fs =>
    (pString (getKey fs "name")).bind fun n =>
    (pNumNonneg (getKey fs "amount_per_portion_grams")).bind fun a =>
    some { name := n, amount_per_portion_grams := a, sub_ingredients := none }
  | _ => none

/-- The component object of `extractRecipe.ts` (lines 14–28). -/
def utilParseComponent : Json → Option Component
  | Json.obj fs =>
    (pStringNonEmpty (getKey fs "name")).bind fun n =>
    (pEnum (getKey fs "type")).bind fun ty =>
    (pIntNonneg (getKey fs "prep_time_minutes")).bind fun prep =>
    (pIntNonneg (getKey fs "cook_time_minutes")).bind fun cook =>
    (pDefaultIntNonneg (getKey fs "cook_temp_fahrenheit") 0).bind fun temp =>
    (pDefaultStr (getKey fs "cook_method") "").bind fun method =>
    (pNumNonneg (getKey fs "portion_weight_grams")).bind fun weight =>
    (pArr utilParseIngredient (getKey fs "ingredients")).bind fun ings =>
    some { name := n, type := ty, prep_time_minutes := prep,
           cook_time_minutes := cook, cook_temp_fahrenheit := temp,
           cook_method := method, portion_weight_grams := weight,
           ingredients := ings }
  | _ => none

/-- `RecipeSchema.parse` of `extractRecipe.ts` (lines 8–30): no
transform; `recipe_name` needs `min(1)`; `chef` defaults to `""`. -/
def utilParseRecipe : Json → Option RecipeDoc
  | Json.obj fs =>
    (pStringNonEmpty (getKey fs "recipe_name")).bind fun rn =>
    (pDefaultStr (getKey fs "chef") "").bind fun chef =>
    (pNumNonneg (getKey fs "yield_count")).bind fun y =>
    (pArr pElemString (getKey fs "allergens")).bind fun alls =>
    (pArr utilParseComponent (getKey fs "components")).bind fun comps =>
    some { recipe_name := rn, chef := chef, yield_count := y,
           allergens := alls, components := comps }
  | _ => none

/-! ### Serialization of a RecipeDoc (the JSON response body) -/

/-- Serialize a sub-ingredient. -/
def encodeSubIngredient (s : SubIngredient) : Json :=
  Json.obj [("name", Json.str s.name),
            ("amount_per_portion_grams", Json.num s.amount_per_portion_grams)]

/-- Serialize an ingredient: the `sub_ingredients` key is emitted only
when the field is present. -/
def encodeIngredient (i : Ingredient) : Json :=
  Json.obj ([("name", Json.str i.name),
             ("amount_per_portion_grams", Json.num i.amount_per_portion_grams)] ++
    (match i.sub_ingredients with
     | some l => [("sub_ingredients", Json.arr (l.map encodeSubIngredient))]
     | none => []))

/-- Serialize a component. -/
def encodeComponent (c : Component) : Json :=
  Json.obj [("name", Json.str c.name),
            ("type", Json.str c.type.toStr),
            ("prep_time_minutes", Json.num c.prep_time_minutes),
            ("cook_time_minutes", Json.num c.cook_time_minutes),
            ("cook_temp_fahrenheit", Json.num c.cook_temp_fahrenheit),
            ("cook_method", Json.str c.cook_method),
            ("portion_weight_grams", Json.num c.portion_weight_grams),
            ("ingredients", Json.arr (c.ingredients.map encodeIngredient))]

/-- Serialize a recipe document. -/
def encodeRecipe (d : RecipeDoc) : Json :=
  Json.obj [("recipe_name", Json.str d.recipe_name),
            ("chef", Json.str d.chef),
            ("yield_count", Json.num d.yield_count),
            ("allergens", Json.arr (d.allergens.map Json.str)),
            ("components", Json.arr (d.components.map encodeComponent))]

mutual
/-- Whether a JSON value contains `null` anywhere in its tree. -/
def Json.hasNull : Json → Bool
  | Json.null => true
  | Json.bool _ => false
  | Json.num _ => false
  | Json.str _ => false
  | Json.arr l => Json.listHasNull l
  | Json.obj fs => Json.fieldsHaveNull fs
/-- Whether any value in a JSON array contains `null`. -/
def Json.listHasNull : List Json → Bool
  | [] => false
  | j :: rest => j.hasNull || Json.listHasNull rest
/-- Whether any field value in a JSON object contains `null`. -/
def Json.fieldsHaveNull : List (String × Json) → Bool
  | [] => false
  | (_, v) :: rest => v.hasNull || Json.fieldsHaveNull rest
end

/-! ### route.ts — prompt template and `POST` handler -/

/-- The system message of the route module (`route.ts` lines 76–96),
verbatim (no placeholders). -/
def routeSystemPrompt : String :=
  "\nYou are an expert culinary data extraction specialist. You must analyze the PROVIDED RECIPE TEXT and extract ALL information from IT ONLY into valid, complete JSON with PROPER NESTED INGREDIENT STRUCTURE.\n\n🚨 CRITICAL: PROCESS ONLY THE PROVIDED RECIPE TEXT - DO NOT USE EXAMPLES OR TEMPLATES! 🚨\n\nEXTRACTION RULES:\n- EXTRACT data from the actual recipe text provided by the user\n- DO NOT copy example names like \"Mediterranean Herb-Crusted Salmon\"\n- USE the actual recipe name, ingredients, and details from the PROVIDED TEXT\n- Process the REAL content, not templates or examples\n\nCRITICAL JSON RULES:\n- NEVER return null values - use empty strings \"\" or N/A for missing data\n- ALWAYS return valid JSON structure matching the exact schema\n- ALL string fields must be actual strings, not null\n- ALL number fields must be actual numbers, not null\n- ALWAYS include all 4 component types: protein, starch, vegetable, sauce\n- HANDLE NESTED INGREDIENTS PROPERLY - do not flatten them!\n- Only include sub_ingredients property when ingredient has sub-components\n- Be thorough and extract all available data\n"

/-- The human-message template text before the `format_instructions`
placeholder (`route.ts` lines 100–103). -/
def routeHumanPre : String :=
  "You must extract complete recipe data and return ONLY valid JSON with no null values and PROPER NESTED INGREDIENTS.\n\n    Schema format:\n    "

/-- The human-message template text between the two placeholders
(`route.ts` lines 103–106). -/
def routeHumanMid : String :=
  "\n\n    Recipe text to extract from:\n    "

/-- The human-message template text after the `recipe_text` placeholder
(`route.ts` lines 106–108). -/
def routeHumanPost : String :=
  "\n\n    Return ONLY the complete JSON object with EXACT field names and proper ingredient nesting:"

/-- Template substitution of the human message: placeholder values are
spliced in literally (LangChain does not re-format inserted values). -/
def routeBuildHuman (formatInstructions recipeText : String) : String :=
  routeHumanPre ++ formatInstructions ++ routeHumanMid ++ recipeText ++ routeHumanPost

/-- `ChatPromptTemplate.fromMessages` of the route (`route.ts` lines
98–109) applied to its two input variables: the resulting message list. -/
def routeBuildPrompt (formatInstructions recipeText : String) : List (String × String) :=
  [("system", routeSystemPrompt), ("human", routeBuildHuman formatInstructions recipeText)]

/-- An HTTP response of the route: status and JSON body. -/
structure HttpResponse where
  status : Nat
  body : Json

/-- Body of the generic 500 response of the route. -/
def errGeneric : Json := Json.obj [("error", Json.str "Failed to extract recipe data")]

/-- Body of the 400 response of the route. -/
def errRequired : Json := Json.obj [("error", Json.str "Recipe text is required")]

/-- The `POST` handler (`route.ts` lines 111–143).  `body` is the result
of `await request.json()` (`none` = the body was not valid JSON, which
throws into the catch-all).  `completion` abstracts the external chain up
to and including the structured-output text-to-JSON step: `none` = the
completion call failed or its output contained no parseable JSON (both
throw into the catch-all); `some cj` = the JSON value handed to
`RecipeSchema.parse`.  Destructuring `null` throws in JavaScript, hence
the 500 on a `null` body; on any other non-object body the destructured
`recipeText` is `undefined` and the 400 branch fires. -/
def routePOST (body : Option Json) (completion : Option Json) : HttpResponse :=
  match body with
  | none => { status := 500, body := errGeneric }
  | some Json.null => { status := 500, body := errGeneric }
  | some b =>
    match b.getField "recipeText" with
    | some (Json.str s) =>
      if s = "" then { status := 400, body := errRequired }
      else
        match completion with
        | none => { status := 500, body := errGeneric }
        | some cj =>
          match routeParseRecipe cj with
          | none => { status := 500, body := errGeneric }
          | some d => { status := 200, body := encodeRecipe d }
    | _ => { status := 400, body := errRequired }

/-! ### Invariants of parsed values -/

/-- What validation guarantees about a sub-ingredient. -/
def SubInv (s : SubIngredient) : Prop := 0 ≤ s.amount_per_portion_grams

/-- What the route ingredient parse (validate + transform) guarantees:
a non-negative amount, and a `sub_ingredients` field that is only ever a
non-empty list of valid sub-ingredients. -/
def IngInv (i : Ingredient) : Prop :=
  0 ≤ i.amount_per_portion_grams ∧
  match i.sub_ingredients with
  | some l => l ≠ [] ∧ ∀ s ∈ l, SubInv s
  | none => True

/-- What route component validation guarantees: the three `int` fields
are integral and non-negative, the weight is non-negative, and every
ingredient satisfies its invariant. -/
def CompInv (c : Component) : Prop :=
  (c.prep_time_minutes.den = 1 ∧ 0 ≤ c.prep_time_minutes) ∧
  (c.cook_time_minutes.den = 1 ∧ 0 ≤ c.cook_time_minutes) ∧
  (c.cook_temp_fahrenheit.den = 1 ∧ 0 ≤ c.cook_temp_fahrenheit) ∧
  0 ≤ c.portion_weight_grams ∧
  ∀ i ∈ c.ingredients, IngInv i

/-- What route recipe validation guarantees about the whole document. -/
def RecipeValidInv (d : RecipeDoc) : Prop :=
  0 ≤ d.yield_count ∧ ∀ c ∈ d.components, CompInv c

/-- What the route `.transform` additionally guarantees: the recipe and
every component carry non-empty names. -/
def RecipeNormInv (d : RecipeDoc) : Prop :=
  d.recipe_name ≠ "" ∧ ∀ c ∈ d.components, c.name ≠ ""

/-! ### Concrete inputs used in counterexamples and witnesses -/

/-- The minimal input of the specification scenario:
`{"recipe_name":"Soup","components":[]}`. -/
def jMinimal : Json :=
  Json.obj [("recipe_name", Json.str "Soup"), ("components", Json.arr [])]

/-- A complete raw completion document: empty recipe name, one component
with an empty name, one mixture ingredient with a sub-ingredient and one
ingredient with an empty `sub_ingredients` array. -/
def jFull : Json := Json.obj
  [("recipe_name", Json.str ""),
   ("chef", Json.str ""),
   ("yield_count", Json.num 0),
   ("allergens", Json.arr [Json.str "fish"]),
   ("components", Json.arr
     [Json.obj
       [("name", Json.str ""),
        ("type", Json.str "protein"),
        ("prep_time_minutes", Json.num 5),
        ("cook_time_minutes", Json.num 10),
        ("cook_temp_fahrenheit", Json.num 350),
        ("cook_method", Json.str "bake"),
        ("portion_weight_grams", Json.num 100),
        ("ingredients", Json.arr
          [Json.obj
            [("name", Json.str "Mix"),
             ("amount_per_portion_grams", Json.num 20),
             ("sub_ingredients", Json.arr
               [Json.obj [("name", Json.str "Salt"),
                          ("amount_per_portion_grams", Json.num 2)]])],
           Json.obj
            [("name", Json.str "Salt"),
             ("amount_per_portion_grams", Json.num 2),
             ("sub_ingredients", Json.arr [])]])]])]

/-- The document the route pipeline produces from `jFull`. -/
def dFull : RecipeDoc :=
  { recipe_name := "Unknown Recipe", chef := "", yield_count := 0,
    allergens := ["fish"],
    components := [
      { name := "Unknown Component", type := ComponentType.protein,
        prep_time_minutes := 5, cook_time_minutes := 10,
        cook_temp_fahrenheit := 350, cook_method := "bake",
        portion_weight_grams := 100,
        ingredients := [
          { name := "Mix", amount_per_portion_grams := 20,
            sub_ingredients := some [{ name := "Salt", amount_per_portion_grams := 2 }] },
          { name := "Salt", amount_per_portion_grams := 2,
            sub_ingredients := none }] }] }

/-- A component document whose `type` is the invalid category
`"dessert"`, every other field valid. -/
def jBadType : Json := Json.obj
  [("name", Json.str "Cake"),
   ("type", Json.str "dessert"),
   ("prep_time_minutes", Json.num 5),
   ("cook_time_minutes", Json.num 10),
   ("cook_temp_fahrenheit", Json.num 350),
   ("cook_method", Json.str "bake"),
   ("portion_weight_grams", Json.num 100),
   ("ingredients", Json.arr [])]

/-- A recipe document valid except that its single component has the
invalid `type` value `"dessert"`. -/
def jBadTypeRecipe : Json := Json.obj
  [("recipe_name", Json.str "Cake"),
   ("chef", Json.str "A"),
   ("yield_count", Json.num 1),
   ("allergens", Json.arr []),
   ("components", Json.arr [jBadType])]

/-- A recipe document valid except for a negative `yield_count`. -/
def jNegYield : Json := Json.obj
  [("recipe_name", Json.str "Soup"),
   ("chef", Json.str "A"),
   ("yield_count", Json.num (-1)),
   ("allergens", Json.arr []),
   ("components", Json.arr [])]

/-- A recipe document with every field valid but `recipe_name` absent. -/
def jNoName : Json := Json.obj
  [("chef", Json.str "A"),
   ("yield_count", Json.num 1),
   ("allergens", Json.arr []),
   ("components", Json.arr [])]

/-- A recipe document with no `chef` key (all other required fields of
both schemas present). -/
def jNoChef : Json := Json.obj
  [("recipe_name", Json.str "Soup"),
   ("yield_count", Json.num 1),
   ("allergens", Json.arr []),
   ("components", Json.arr [])]

/-- A recipe document both modules accept, whose single ingredient
carries a non-empty `sub_ingredients` array. -/
def jShared : Json := Json.obj
  [("recipe_name", Json.str "Salmon"),
   ("chef", Json.str "A"),
   ("yield_count", Json.num 4),
   ("allergens", Json.arr []),
   ("components", Json.arr
     [Json.obj
       [("name", Json.str "Fish"),
        ("type", Json.str "protein"),
        ("prep_time_minutes", Json.num 5),
        ("cook_time_minutes", Json.num 10),
        ("cook_temp_fahrenheit", Json.num 350),
        ("cook_method", Json.str "bake"),
        ("portion_weight_grams", Json.num 100),
        ("ingredients", Json.arr
          [Json.obj
            [("name", Json.str "Crust"),
             ("amount_per_portion_grams", Json.num 20),
             ("sub_ingredients", Json.arr
               [Json.obj [("name", Json.str "Panko"),
                          ("amount_per_portion_grams", Json.num 12)]])]])]])]

/-- A single ingredient document with an empty `sub_ingredients` array
(the dropped-field scenario of the specification). -/
def jSalt : Json := Json.obj
  [("name", Json.str "Salt"),
   ("amount_per_portion_grams", Json.num 2),
   ("sub_ingredients", Json.arr [])]

/-! ### Helper lemmas -/

theorem pString_eq_some {o : Option Json} {s : String} :
    pString o = some s ↔ o = some (Json.str s) := by
  cases o with
  | none => simp [pString]
  | some v => cases v <;> simp [pString]

theorem pStringNonEmpty_eq_some {o : Option Json} {s : String} :
    pStringNonEmpty o = some s ↔ o = some (Json.str s) ∧ s ≠ "" := by
  cases o with
  | none => simp [pStringNonEmpty]
  | some v =>
    cases v <;> simp [pStringNonEmpty]
    case str s' =>
      by_cases h : s' = "" <;> simp [h] <;> aesop

theorem pNumNonneg_eq_some {o : Option Json} {q : Rat} :
    pNumNonneg o = some q ↔ o = some (Json.num q) ∧ 0 ≤ q := by
  cases o with
  | none => simp [pNumNonneg]
  | some v =>
    cases v <;> simp [pNumNonneg]
    case num q' =>
      by_cases h : 0 ≤ q' <;> simp [h] <;> aesop

theorem pIntNonneg_eq_some {o : Option Json} {q : Rat} :
    pIntNonneg o = some q ↔ o = some (Json.num q) ∧ q.den = 1 ∧ 0 ≤ q := by
  cases o with
  | none => simp [pIntNonneg]
  | some v =>
    cases v <;> simp [pIntNonneg]
    case num q' =>
      by_cases h : q'.den = 1 ∧ 0 ≤ q' <;> simp [h] <;> aesop

theorem parseList_mem {α : Type} {p : Json → Option α} :
    ∀ {js : List Json} {l : List α}, parseList p js = some l →
      ∀ a ∈ l, ∃ j ∈ js, p j = some a := by
  intro js
  induction js with
  | nil => intro l h a ha; simp [parseList] at h; subst h; simp at ha
  | cons j rest ih =>
    intro l h a ha
    simp only [parseList] at h
    cases hj : p j with
    | none => rw [hj] at h; exact absurd h (by simp)
    | some b =>
      rw [hj] at h
      cases hr : parseList p rest with
      | none => rw [hr] at h; exact absurd h (by simp)
      | some l' =>
        rw [hr] at h
        simp at h
        subst h
        rcases List.mem_cons.mp ha with rfl | hmem
        · exact ⟨j, List.mem_cons_self _ _, hj⟩
        · obtain ⟨j', hj', hp⟩ := ih hr a hmem
          exact ⟨j', List.mem_cons_of_mem _ hj', hp⟩

theorem parseList_map_of {α : Type} {p : Json → Option α} {enc : α → Json} :
    ∀ {l : List α}, (∀ x ∈ l, p (enc x) = some x) →
      parseList p (l.map enc) = some l := by
  intro l
  induction l with
  | nil => intro _; simp [parseList]
  | cons x rest ih =>
    intro h
    simp only [List.map_cons, parseList]
    rw [h x (List.mem_cons_self _ _), ih (fun y hy => h y (List.mem_cons_of_mem _ hy))]

theorem pEnum_toStr (t : ComponentType) :
    pEnum (some (Json.str t.toStr)) = some t := by
  cases t <;> rfl

theorem jsOrNum_zero (q : Rat) : jsOrNum q 0 = q := by
  unfold jsOrNum; split <;> simp_all

theorem jsOrStr_empty_default (s : String) : jsOrStr s "" = s := by
  unfold jsOrStr; split <;> simp_all

theorem jsOrStr_ne {d : String} (s : String) (hd : d ≠ "") : jsOrStr s d ≠ "" := by
  unfold jsOrStr; split <;> simp_all

theorem jsOrStr_of_ne {s : String} (d : String) (hs : s ≠ "") : jsOrStr s d = s := by
  unfold jsOrStr; split <;> simp_all

theorem routeParseSub_inv {j : Json} {s : SubIngredient} :
    routeParseSubIngredient j = some s → SubInv s := by
  intro h
  cases j <;> simp [routeParseSubIngredient] at h
  case obj fs =>
    simp only [Option.bind_eq_some] at h
    obtain ⟨n, hn, a, ha, heq⟩ := h
    simp at heq
    rw [pNumNonneg_eq_some] at ha
    subst heq
    exact ha.2

theorem routeParseSub_roundtrip {s : SubIngredient} (h : SubInv s) :
    routeParseSubIngredient (encodeSubIngredient s) = some s := by
  have ha : 0 ≤ s.amount_per_portion_grams := h
  simp [routeParseSubIngredient, encodeSubIngredient, getKey, pString, pNumNonneg, ha]

theorem pOptSubs_inv {fs : List (String × Json)} {subs : Option (List SubIngredient)}
    (h : pOptSubs fs = some subs) :
    subs = none ∨ ∃ l js, subs = some l ∧
      getKey fs "sub_ingredients" = some (Json.arr js) ∧
      parseList routeParseSubIngredient js = some l := by
  unfold pOptSubs at h
  cases hk : getKey fs "sub_ingredients" with
  | none => rw [hk] at h; simp at h; exact Or.inl h.symm
  | some v =>
    rw [hk] at h
    cases v <;> simp at h
    case arr js =>
      obtain ⟨l, hl, rfl⟩ := h
      exact Or.inr ⟨l, js, rfl, rfl, hl⟩

theorem routeParseIngredient_inv {j : Json} {i : Ingredient} :
    routeParseIngredient j = some i → IngInv i := by
  intro h
  unfold routeParseIngredient at h
  cases hv : routeValidateIngredient j with
  | none => rw [hv] at h; exact absurd h (by simp)
  | some i0 =>
    rw [hv] at h
    simp at h
    subst h
    cases j <;> simp [routeValidateIngredient] at hv
    case obj fs =>
      simp only [Option.bind_eq_some] at hv
      obtain ⟨n, hn, a, ha, subs, hsubs, heq⟩ := hv
      simp at heq
      rw [pNumNonneg_eq_some] at ha
      subst heq
      constructor
      · exact ha.2
      · rcases pOptSubs_inv hsubs with rfl | ⟨l, js, rfl, _, hl⟩
        · simp [routeTransformIngredient]
        · simp only [routeTransformIngredient]
          by_cases hlen : 0 < l.length <;> simp [hlen]
          constructor
          · exact List.ne_nil_of_length_pos hlen
          · intro s hs
            obtain ⟨j', _, hp⟩ := parseList_mem hl s hs
            exact routeParseSub_inv hp

theorem routeParseIngredient_roundtrip {i : Ingredient} (h : IngInv i) :
    routeParseIngredient (encodeIngredient i) = some i := by
  obtain ⟨nm, am, sub⟩ := i
  obtain ⟨ha, hsubs⟩ := h
  simp only at ha
  cases sub with
  | none =>
    simp [routeParseIngredient, routeValidateIngredient, encodeIngredient, getKey,
          pString, pNumNonneg, pOptSubs, ha, routeTransformIngredient]
  | some l =>
    simp only [IngInv] at hsubs
    obtain ⟨hne, hall⟩ := hsubs
    have hlist : parseList routeParseSubIngredient (l.map encodeSubIngredient) = some l :=
      parseList_map_of (fun s hsmem => routeParseSub_roundtrip (hall s hsmem))
    simp [routeParseIngredient, routeValidateIngredient, encodeIngredient, getKey,
          pString, pNumNonneg, pOptSubs, ha, hlist, routeTransformIngredient,
          List.length_pos.mpr hne]

theorem routeValidateComponent_inv {j : Json} {c : Component} :
    routeValidateComponent j = some c → CompInv c := by
  intro h
  cases j <;> simp [routeValidateComponent] at h
  case obj fs =>
    simp only [Option.bind_eq_some] at h
    obtain ⟨n, hn, ty, hty, prep, hprep, cook, hcook, temp, htemp,
            method, hmethod, weight, hweight, ings, hings, heq⟩ := h
    simp at heq
    rw [pIntNonneg_eq_some] at hprep hcook htemp
    rw [pNumNonneg_eq_some] at hweight
    subst heq
    refine ⟨⟨hprep.2.1, hprep.2.2⟩, ⟨hcook.2.1, hcook.2.2⟩, ⟨htemp.2.1, htemp.2.2⟩, hweight.2, ?_⟩
    intro i hi
    cases hk : getKey fs "ingredients" with
    | none => rw [hk] at hings; exact absurd hings (by simp [pArr])
    | some v =>
      rw [hk] at hings
      cases v <;> simp [pArr] at hings
      case arr js =>
        obtain ⟨j', _, hp⟩ := parseList_mem hings i hi
        exact routeParseIngredient_inv hp

theorem routeValidateComponent_roundtrip {c : Component} (h : CompInv c) :
    routeValidateComponent (encodeComponent c) = some c := by
  obtain ⟨nm, ty, prep, cook, temp, method, weight, ings⟩ := c
  obtain ⟨⟨hp1, hp2⟩, ⟨hc1, hc2⟩, ⟨ht1, ht2⟩, hw, hi⟩ := h
  simp only at hp1 hp2 hc1 hc2 ht1 ht2 hw hi
  have hlist : parseList routeParseIngredient (ings.map encodeIngredient) = some ings :=
    parseList_map_of (fun i hmem => routeParseIngredient_roundtrip (hi i hmem))
  simp [routeValidateComponent, encodeComponent, getKey, pString, pNumNonneg, pIntNonneg,
        pEnum_toStr, pArr, hp1, hp2, hc1, hc2, ht1, ht2, hw, hlist]

theorem routeValidateRecipe_inv {j : Json} {v : RecipeDoc} :
    routeValidateRecipe j = some v → RecipeValidInv v := by
  intro h
  cases j <;> simp [routeValidateRecipe] at h
  case obj fs =>
    simp only [Option.bind_eq_some] at h
    obtain ⟨rn, hrn, chef, hchef, y, hy, alls, halls, comps, hcomps, heq⟩ := h
    simp at heq
    rw [pNumNonneg_eq_some] at hy
    subst heq
    refine ⟨hy.2, ?_⟩
    intro c hc
    cases hk : getKey fs "components" with
    | none => rw [hk] at hcomps; exact absurd hcomps (by simp [pArr])
    | some w =>
      rw [hk] at hcomps
      cases w <;> simp [pArr] at hcomps
      case arr js =>
        obtain ⟨j', _, hp⟩ := parseList_mem hcomps c hc
        exact routeValidateComponent_inv hp

theorem routeValidateRecipe_roundtrip {d : RecipeDoc} (h : RecipeValidInv d) :
    routeValidateRecipe (encodeRecipe d) = some d := by
  obtain ⟨rn, chef, y, alls, comps⟩ := d
  obtain ⟨hy, hc⟩ := h
  simp only at hy hc
  have hcomps : parseList routeValidateComponent (comps.map encodeComponent) = some comps :=
    parseList_map_of (fun c hmem => routeValidateComponent_roundtrip (hc c hmem))
  have halls : parseList pElemString (alls.map Json.str) = some alls :=
    parseList_map_of (fun s _ => rfl)
  simp [routeValidateRecipe, encodeRecipe, getKey, pString, pNumNonneg, pArr,
        hy, hcomps, halls]

theorem routeTransformComponent_inv {c : Component} (h : CompInv c) :
    CompInv (routeTransformComponent c) ∧
      (routeTransformComponent c).name ≠ "" := by
  obtain ⟨⟨hp1, hp2⟩, ⟨hc1, hc2⟩, ⟨ht1, ht2⟩, hw, hi⟩ := h
  constructor
  · exact ⟨⟨by simpa [routeTransformComponent, jsOrNum_zero] using hp1,
            by simpa [routeTransformComponent, jsOrNum_zero] using hp2⟩,
           ⟨by simpa [routeTransformComponent, jsOrNum_zero] using hc1,
            by simpa [routeTransformComponent, jsOrNum_zero] using hc2⟩,
           ⟨by simpa [routeTransformComponent, jsOrNum_zero] using ht1,
            by simpa [routeTransformComponent, jsOrNum_zero] using ht2⟩,
           by simpa [routeTransformComponent, jsOrNum_zero] using hw,
           by simpa [routeTransformComponent] using hi⟩
  · simp only [routeTransformComponent]
    exact jsOrStr_ne c.name (by decide)

theorem routeParseRecipe_inv {j : Json} {d : RecipeDoc} :
    routeParseRecipe j = some d → RecipeValidInv d ∧ RecipeNormInv d := by
  intro h
  unfold routeParseRecipe at h
  cases hv : routeValidateRecipe j with
  | none => rw [hv] at h; exact absurd h (by simp)
  | some v =>
    rw [hv] at h
    simp at h
    subst h
    obtain ⟨hy, hc⟩ := routeValidateRecipe_inv hv
    refine ⟨⟨?_, ?_⟩, ?_, ?_⟩
    · simpa [routeTransformRecipe, jsOrNum_zero] using hy
    · intro c hcmem
      simp only [routeTransformRecipe, List.mem_map] at hcmem
      obtain ⟨c0, hc0, rfl⟩ := hcmem
      exact (routeTransformComponent_inv (hc c0 hc0)).1
    · simp only [routeTransformRecipe]
      exact jsOrStr_ne v.recipe_name (by decide)
    · intro c hcmem
      simp only [routeTransformRecipe, List.mem_map] at hcmem
      obtain ⟨c0, hc0, rfl⟩ := hcmem
      exact (routeTransformComponent_inv (hc c0 hc0)).2

theorem routeTransformComponent_id {c : Component} (h : c.name ≠ "") :
    routeTransformComponent c = c := by
  obtain ⟨nm, ty, prep, cook, temp, method, weight, ings⟩ := c
  simp only at h
  simp [routeTransformComponent, jsOrNum_zero, jsOrStr_empty_default, jsOrStr_of_ne _ h]

theorem routeTransformRecipe_id {d : RecipeDoc} (h : RecipeNormInv d) :
    routeTransformRecipe d = d := by
  obtain ⟨rn, chef, y, alls, comps⟩ := d
  obtain ⟨hrn, hc⟩ := h
  simp only at hrn hc
  simp only [routeTransformRecipe, jsOrNum_zero, jsOrStr_empty_default,
             jsOrStr_of_ne _ hrn, RecipeDoc.mk.injEq, true_and]
  exact (List.map_congr_left fun c hcm =>
    routeTransformComponent_id (hc c hcm)).trans (List.map_id comps)

theorem encodeIngredient_getField_subs (i : Ingredient) :
    (encodeIngredient i).getField "sub_ingredients" =
      i.sub_ingredients.map (fun l => Json.arr (l.map encodeSubIngredient)) := by
  cases hs : i.sub_ingredients <;> simp [encodeIngredient, Json.getField, getKey, hs]

theorem encodeSubIngredient_hasNull (s : SubIngredient) :
    (encodeSubIngredient s).hasNull = false := by
  simp [encodeSubIngredient, Json.hasNull, Json.fieldsHaveNull]

theorem listHasNull_map_eq_false {α : Type} {f : α → Json} :
    ∀ {l : List α}, (∀ x ∈ l, (f x).hasNull = false) →
      Json.listHasNull (l.map f) = false := by
  intro l
  induction l with
  | nil => intro _; simp [Json.listHasNull]
  | cons x rest ih =>
    intro h
    simp only [List.map_cons, Json.listHasNull, Bool.or_eq_false_iff]
    exact ⟨h x (List.mem_cons_self _ _), ih (fun y hy => h y (List.mem_cons_of_mem _ hy))⟩

theorem encodeIngredient_hasNull (i : Ingredient) :
    (encodeIngredient i).hasNull = false := by
  cases hs : i.sub_ingredients with
  | none => simp [encodeIngredient, hs, Json.hasNull, Json.fieldsHaveNull]
  | some l =>
    simp [encodeIngredient, hs, Json.hasNull, Json.fieldsHaveNull,
          listHasNull_map_eq_false (fun s _ => encodeSubIngredient_hasNull s)]

theorem encodeComponent_hasNull (c : Component) :
    (encodeComponent c).hasNull = false := by
  simp [encodeComponent, Json.hasNull, Json.fieldsHaveNull,
        listHasNull_map_eq_false (fun i _ => encodeIngredient_hasNull i)]

theorem encodeRecipe_hasNull (d : RecipeDoc) :
    (encodeRecipe d).hasNull = false := by
  simp [encodeRecipe, Json.hasNull, Json.fieldsHaveNull,
        listHasNull_map_eq_false (fun s _ => (rfl : (Json.str s).hasNull = false)),
        listHasNull_map_eq_false (fun c _ => encodeComponent_hasNull c)]

/-! ### Claims -/

/-- C1: in every document the route pipeline produces, an ingredient
serializes a `sub_ingredients` key exactly when the field holds at least
one element; an ingredient validated with an empty or absent
`sub_ingredients` sequence carries no key at all after the transform, and
one validated with a non-empty sequence keeps it unchanged. -/
theorem c1_sub_ingredients_iff_nonempty :
    (∀ j d, routeParseRecipe j = some d → ∀ c ∈ d.components, ∀ i ∈ c.ingredients,
      (((encodeIngredient i).getField "sub_ingredients").isSome ↔
        ∃ l, i.sub_ingredients = some l ∧ l ≠ [])) ∧
    (∀ j i, routeValidateIngredient j = some i →
      ((i.sub_ingredients = none ∨ i.sub_ingredients = some []) →
        (routeTransformIngredient i).sub_ingredients = none ∧
        (encodeIngredient (routeTransformIngredient i)).getField "sub_ingredients" = none) ∧
      (∀ l, i.sub_ingredients = some l → l ≠ [] →
        (routeTransformIngredient i).sub_ingredients = some l)) := by
  constructor
  · intro j d hparse c hc i hi
    have hinv := ((routeParseRecipe_inv hparse).1.2 c hc).2.2.2.2 i hi
    unfold IngInv at hinv
    rw [encodeIngredient_getField_subs]
    cases hs : i.sub_ingredients with
    | none => simp
    | some l =>
      rw [hs] at hinv
      simp only [Option.map_some', Option.isSome_some, true_iff]
      exact ⟨l, rfl, hinv.2.1⟩
  · intro j i _
    constructor
    · intro hcase
      have hnone : (routeTransformIngredient i).sub_ingredients = none := by
        rcases hcase with hs | hs <;> simp [routeTransformIngredient, hs]
      refine ⟨hnone, ?_⟩
      rw [encodeIngredient_getField_subs, hnone]
      rfl
    · intro l hs hne
      simp [routeTransformIngredient, hs, List.length_pos.mpr hne]

/-- C1 witness: the dropped-field ingredient of the specification
`{"name":"Salt","amount_per_portion_grams":2,"sub_ingredients":[]}`, and
the full document `jFull`. -/
theorem c1_witness :
    ((routeTransformIngredient
        { name := "Salt", amount_per_portion_grams := 2,
          sub_ingredients := some [] }).sub_ingredients = none ∧
      (encodeIngredient (routeTransformIngredient
        { name := "Salt", amount_per_portion_grams := 2,
          sub_ingredients := some [] })).getField "sub_ingredients" = none) ∧
    (∀ c ∈ dFull.components, ∀ i ∈ c.ingredients,
      (((encodeIngredient i).getField "sub_ingredients").isSome ↔
        ∃ l, i.sub_ingredients = some l ∧ l ≠ [])) :=
  ⟨((c1_sub_ingredients_iff_nonempty.2 jSalt _ (by decide)).1 (Or.inr rfl)),
   c1_sub_ingredients_iff_nonempty.1 jFull dFull (by decide)⟩

/-- C2 counterexample: the minimal scenario input of the specification
`{"recipe_name":"Soup","components":[]}` is rejected by the route schema
(the required `chef`, `yield_count` and `allergens` fields are missing),
so normalization is not total over JSON objects and the claimed output is
never produced. -/
theorem c2_counterexample : routeParseRecipe jMinimal = none := by decide

/-- C2 (amended): normalization is not total — a JSON object missing a
required field is rejected — but every document the route schema does
accept serializes with no null value anywhere in the tree. -/
theorem c2_no_null_on_accepted {j : Json} {d : RecipeDoc}
    (_h : routeParseRecipe j = some d) :
    (encodeRecipe d).hasNull = false :=
  encodeRecipe_hasNull d

/-- C2 witness: the accepted document `jFull`. -/
theorem c2_witness : (encodeRecipe dFull).hasNull = false :=
  c2_no_null_on_accepted (show routeParseRecipe jFull = some dFull by decide)

/-- C3 counterexample: a recipe whose only component has the invalid
category `"dessert"` is rejected by the route schema instead of being
normalized to `protein`. -/
theorem c3_counterexample : routeParseRecipe jBadTypeRecipe = none := by decide

/-- C3 (amended): every component of an accepted document serializes its
`type` as one of exactly {protein, starch, vegetable, sauce}; an invalid
or absent source `type` makes component validation fail rather than
default to `protein`. -/
theorem c3_enum_closure :
    (∀ j d, routeParseRecipe j = some d → ∀ c ∈ d.components,
      (encodeComponent c).getField "type" = some (Json.str c.type.toStr) ∧
      (c.type.toStr = "protein" ∨ c.type.toStr = "starch" ∨
       c.type.toStr = "vegetable" ∨ c.type.toStr = "sauce")) ∧
    (∀ fs, pEnum (getKey fs "type") = none →
      routeValidateComponent (Json.obj fs) = none) := by
  constructor
  · intro j d _ c _
    constructor
    · simp [encodeComponent, Json.getField, getKey]
    · cases c.type <;> simp [ComponentType.toStr]
  · intro fs h
    cases hn : pString (getKey fs "name") <;>
      simp [routeValidateComponent, hn, h]

/-- C3 witness: the `"dessert"` component document is rejected at the
`type` field, and the accepted document `jFull` serializes its component
type as `"protein"`. -/
theorem c3_witness :
    routeValidateComponent (Json.obj
      [("name", Json.str "Cake"),
       ("type", Json.str "dessert"),
       ("prep_time_minutes", Json.num 5),
       ("cook_time_minutes", Json.num 10),
       ("cook_temp_fahrenheit", Json.num 350),
       ("cook_method", Json.str "bake"),
       ("portion_weight_grams", Json.num 100),
       ("ingredients", Json.arr [])]) = none ∧
    (∀ c ∈ dFull.components,
      (encodeComponent c).getField "type" = some (Json.str c.type.toStr) ∧
      (c.type.toStr = "protein" ∨ c.type.toStr = "starch" ∨
       c.type.toStr = "vegetable" ∨ c.type.toStr = "sauce")) :=
  ⟨c3_enum_closure.2 _ (by decide),
   c3_enum_closure.1 jFull dFull (by decide)⟩

/-- C4 counterexample: a recipe with `yield_count = -1` (all other fields
valid) is rejected by the route schema, so a negative source value yields
no output document at all rather than a repaired non-negative one. -/
theorem c4_counterexample : routeParseRecipe jNegYield = none := by decide

/-- C4 (amended): every numeric field of every document the route
pipeline does produce is non-negative; negative or absent source values
cause validation failure instead of repair. -/
theorem c4_nonneg_on_accepted {j : Json} {d : RecipeDoc}
    (h : routeParseRecipe j = some d) :
    0 ≤ d.yield_count ∧ ∀ c ∈ d.components,
      0 ≤ c.prep_time_minutes ∧ 0 ≤ c.cook_time_minutes ∧
      0 ≤ c.cook_temp_fahrenheit ∧ 0 ≤ c.portion_weight_grams ∧
      ∀ i ∈ c.ingredients, 0 ≤ i.amount_per_portion_grams ∧
        ∀ l, i.sub_ingredients = some l →
          ∀ s ∈ l, 0 ≤ s.amount_per_portion_grams := by
  obtain ⟨⟨hy, hcomps⟩, _⟩ := routeParseRecipe_inv h
  refine ⟨hy, ?_⟩
  intro c hc
  obtain ⟨⟨_, hp⟩, ⟨_, hco⟩, ⟨_, ht⟩, hw, hing⟩ := hcomps c hc
  refine ⟨hp, hco, ht, hw, ?_⟩
  intro i hi
  obtain ⟨ha, hsub⟩ := hing i hi
  refine ⟨ha, ?_⟩
  intro l hl s hs
  rw [hl] at hsub
  exact hsub.2 s hs

/-- C4 witness: the accepted document `jFull`. -/
theorem c4_witness :
    0 ≤ dFull.yield_count ∧ ∀ c ∈ dFull.components,
      0 ≤ c.prep_time_minutes ∧ 0 ≤ c.cook_time_minutes ∧
      0 ≤ c.cook_temp_fahrenheit ∧ 0 ≤ c.portion_weight_grams ∧
      ∀ i ∈ c.ingredients, 0 ≤ i.amount_per_portion_grams ∧
        ∀ l, i.sub_ingredients = some l →
          ∀ s ∈ l, 0 ≤ s.amount_per_portion_grams :=
  c4_nonneg_on_accepted (show routeParseRecipe jFull = some dFull by decide)

/-- C5: the route normalization is idempotent — re-parsing the serialized
form of any document the pipeline produced returns the same document with
no further changes. -/
theorem c5_normalization_idempotent {j : Json} {d : RecipeDoc}
    (h : routeParseRecipe j = some d) :
    routeParseRecipe (encodeRecipe d) = some d := by
  obtain ⟨hvalid, hnorm⟩ := routeParseRecipe_inv h
  unfold routeParseRecipe
  rw [routeValidateRecipe_roundtrip hvalid]
  simp [routeTransformRecipe_id hnorm]

/-- C5 witness: re-normalizing the document produced from `jFull` is the
identity on it. -/
theorem c5_witness : routeParseRecipe (encodeRecipe dFull) = some dFull :=
  c5_normalization_idempotent (show routeParseRecipe jFull = some dFull by decide)

/-- C6 counterexample: a request whose JSON body is the literal `null`
has no `recipeText` field at all, yet the handler answers the generic
500 — destructuring `null` throws into the catch-all — and not the 400
the claim requires for a missing `recipeText`. -/
theorem c6_counterexample :
    Json.null.getField "recipeText" = none ∧
    routePOST (some Json.null) none = ⟨500, errGeneric⟩ ∧
    routePOST (some Json.null) none ≠ ⟨400, errRequired⟩ := by
  refine ⟨rfl, rfl, ?_⟩
  intro h
  exact absurd (congrArg HttpResponse.status h) (by decide)

/-- C6 (amended): at the HTTP boundary, for every request: an
unparseable or `null` JSON body gets the generic 500 (even though
`recipeText` is equally missing there); for any other body, a missing,
non-string or empty `recipeText` yields status 400; a failed completion
call, unparseable completion output, or schema rejection all collapse to
the single generic 500 response
`{"error":"Failed to extract recipe data"}`; and a successful pipeline
run yields 200 with the serialized document. -/
theorem c6_http_boundary_total (body completion : Option Json) :
    ((body = none ∨ body = some Json.null) →
      routePOST body completion = ⟨500, errGeneric⟩) ∧
    (∀ b, body = some b → b ≠ Json.null →
      ((b.getField "recipeText" = none ∨
        (∃ v, b.getField "recipeText" = some v ∧ ∀ s, v ≠ Json.str s) ∨
        b.getField "recipeText" = some (Json.str "")) →
        routePOST body completion = ⟨400, errRequired⟩) ∧
      (∀ s, b.getField "recipeText" = some (Json.str s) → s ≠ "" →
        (completion = none ∨ ∃ cj, completion = some cj ∧ routeParseRecipe cj = none) →
        routePOST body completion = ⟨500, errGeneric⟩) ∧
      (∀ s cj d, b.getField "recipeText" = some (Json.str s) → s ≠ "" →
        completion = some cj → routeParseRecipe cj = some d →
        routePOST body completion = ⟨200, encodeRecipe d⟩)) := by
  refine ⟨?_, ?_⟩
  · rintro (rfl | rfl) <;> rfl
  · rintro b rfl hb
    cases b with
    | null => exact absurd rfl hb
    | bool x =>
      exact ⟨fun _ => rfl,
             fun s hk => by simp [Json.getField] at hk,
             fun s cj d hk => by simp [Json.getField] at hk⟩
    | num q =>
      exact ⟨fun _ => rfl,
             fun s hk => by simp [Json.getField] at hk,
             fun s cj d hk => by simp [Json.getField] at hk⟩
    | str t =>
      exact ⟨fun _ => rfl,
             fun s hk => by simp [Json.getField] at hk,
             fun s cj d hk => by simp [Json.getField] at hk⟩
    | arr l =>
      exact ⟨fun _ => rfl,
             fun s hk => by simp [Json.getField] at hk,
             fun s cj d hk => by simp [Json.getField] at hk⟩
    | obj fs =>
      refine ⟨?_, ?_, ?_⟩
      · rintro (hk | ⟨v, hk, hv⟩ | hk) <;> simp [Json.getField] at hk
        · simp [routePOST, Json.getField, hk]
        · cases v <;> simp [routePOST, Json.getField, hk]
          case str s => exact absurd rfl (hv s)
        · simp [routePOST, Json.getField, hk]
      · rintro s hk hs (hc | ⟨cj, hc, hp⟩) <;> simp [Json.getField] at hk <;>
          simp [routePOST, Json.getField, hk, hs, hc]
        rw [hp]
      · intro s cj d hk hs hc hp
        simp [Json.getField] at hk
        simp [routePOST, Json.getField, hk, hs, hc, hp]

/-- C6 witness: an empty body object gets 400; a valid `recipeText` with
a failed completion gets the generic 500; an unparseable body gets the
generic 500. -/
theorem c6_witness_total :
    routePOST (some (Json.obj [])) none = ⟨400, errRequired⟩ ∧
    routePOST (some (Json.obj [("recipeText", Json.str "Pasta")])) none =
      ⟨500, errGeneric⟩ ∧
    routePOST none none = ⟨500, errGeneric⟩ :=
  ⟨((c6_http_boundary_total (some (Json.obj [])) none).2 _ rfl
      (fun h => Json.noConfusion h)).1 (Or.inl rfl),
   ((c6_http_boundary_total (some (Json.obj [("recipeText", Json.str "Pasta")])) none).2 _ rfl
      (fun h => Json.noConfusion h)).2.1 "Pasta" rfl (by decide) (Or.inl rfl),
   (c6_http_boundary_total none none).1 (Or.inl rfl)⟩

/-- C7 counterexample: a recipe document with `recipe_name` absent (all
other fields valid) is rejected by the route schema instead of being
normalized to `"Unknown Recipe"`. -/
theorem c7_counterexample : routeParseRecipe jNoName = none := by decide

/-- C7 (amended): every accepted document has a non-empty `recipe_name`,
and an empty source `recipe_name` becomes `"Unknown Recipe"`; an absent
`recipe_name` is a validation failure, not a default. -/
theorem c7_recipe_name_nonempty {j : Json} {d : RecipeDoc}
    (h : routeParseRecipe j = some d) :
    d.recipe_name ≠ "" ∧
    (j.getField "recipe_name" = some (Json.str "") →
      d.recipe_name = "Unknown Recipe") := by
  refine ⟨(routeParseRecipe_inv h).2.1, ?_⟩
  intro hfield
  cases j <;> simp [Json.getField] at hfield
  case obj fs =>
    unfold routeParseRecipe at h
    cases hv : routeValidateRecipe (Json.obj fs) with
    | none => rw [hv] at h; exact absurd h (by simp)
    | some v =>
      rw [hv] at h
      simp at h
      subst h
      simp only [routeValidateRecipe, Option.bind_eq_some] at hv
      obtain ⟨rn, hrn, chef, hchef, y, hy, alls, halls, comps, hcomps, heq⟩ := hv
      simp at heq
      rw [pString_eq_some] at hrn
      rw [hfield] at hrn
      simp at hrn
      subst heq
      simp [routeTransformRecipe, jsOrStr, hrn]

/-- C7 witness: `jFull` has an empty source `recipe_name` and is
normalized to `"Unknown Recipe"`. -/
theorem c7_witness :
    dFull.recipe_name ≠ "" ∧
    (jFull.getField "recipe_name" = some (Json.str "") →
      dFull.recipe_name = "Unknown Recipe") :=
  c7_recipe_name_nonempty (show routeParseRecipe jFull = some dFull by decide)

/-- C8: the prompt builder is a pure template — equal inputs give the
identical message payload — and the recipe text appears verbatim as a
contiguous segment of the human message, with no truncation or
re-encoding. -/
theorem c8_prompt_deterministic_verbatim :
    (∀ fi rt fi' rt', fi = fi' → rt = rt' →
      routeBuildPrompt fi rt = routeBuildPrompt fi' rt') ∧
    (∀ fi rt, ∃ pre post, routeBuildHuman fi rt = pre ++ rt ++ post) := by
  constructor
  · intro fi rt fi' rt' hfi hrt
    rw [hfi, hrt]
  · intro fi rt
    exact ⟨routeHumanPre ++ fi ++ routeHumanMid, routeHumanPost, rfl⟩

/-- C8 witness: concrete schema instructions and recipe text. -/
theorem c8_witness :
    routeBuildPrompt "SCHEMA" "Recipe text" = routeBuildPrompt "SCHEMA" "Recipe text" ∧
    ∃ pre post, routeBuildHuman "SCHEMA" "Recipe text" = pre ++ "Recipe text" ++ post :=
  ⟨c8_prompt_deterministic_verbatim.1 "SCHEMA" "Recipe text" "SCHEMA" "Recipe text" rfl rfl,
   c8_prompt_deterministic_verbatim.2 "SCHEMA" "Recipe text"⟩

/-- C9 counterexample: the two parse-and-normalize stages do not accept
the same inputs — a recipe without a `chef` key is accepted by the
utility module (whose schema defaults `chef` to `""`) and rejected by the
route module (whose schema requires it). -/
theorem c9_counterexample :
    utilParseRecipe jNoChef =
      some { recipe_name := "Soup", chef := "", yield_count := 1,
             allergens := [], components := [] } ∧
    routeParseRecipe jNoChef = none := by
  constructor <;> decide

/-- C9 (amended): the two extraction modules do not collapse into one
pipeline — their parse stages accept different input sets, and on a
shared accepted input whose ingredient carries `sub_ingredients` the
route module preserves the nesting while the utility module strips it,
so the results differ. -/
theorem c9_modules_differ :
    (utilParseRecipe jNoChef).isSome = true ∧
    routeParseRecipe jNoChef = none ∧
    (routeParseRecipe jShared).isSome = true ∧
    (utilParseRecipe jShared).isSome = true ∧
    routeParseRecipe jShared ≠ utilParseRecipe jShared := by
  refine ⟨by decide, by decide, by decide, by decide, by decide⟩

/-- C10: every component of a document produced by the route pipeline has
a non-empty name, and a component that validated with the empty-string
name leaves the transform renamed to `"Unknown Component"`. -/
theorem c10_component_name_default :
    (∀ j d, routeParseRecipe j = some d → ∀ c ∈ d.components, c.name ≠ "") ∧
    (∀ c : Component, c.name = "" →
      (routeTransformComponent c).name = "Unknown Component") := by
  constructor
  · intro j d h
    exact (routeParseRecipe_inv h).2.2
  · intro c h
    simp [routeTransformComponent, jsOrStr, h]

/-- C10 witness: `jFull` contains a component with an empty name; the
produced document names it `"Unknown Component"`, which is non-empty. -/
theorem c10_witness :
    (∀ c ∈ dFull.components, c.name ≠ "") ∧
    (routeTransformComponent
      { name := "", type := ComponentType.protein, prep_time_minutes := 0,
        cook_time_minutes := 0, cook_temp_fahrenheit := 0, cook_method := "",
        portion_weight_grams := 0, ingredients := [] }).name = "Unknown Component" :=
  ⟨c10_component_name_default.1 jFull dFull (by decide),
   c10_component_name_default.2 _ rfl⟩
